import Mathlib

/-!
Verification of the geometric normalization engine of the TakeBridge CUA
framework (`src/framework/utils/image_processor.py`).

The Python code is embedded shallowly:

* Python integers become `ℕ`/`ℤ`.
* Python float arithmetic is modelled by exact arithmetic.  Where the code
  feeds `math.sqrt` into `math.floor`/`math.ceil`, the composite
  `⌊√(a/b)⌋` / `⌈√(a/b)⌉` is an integer quantity and is embedded by the
  executable functions `floorSqrtDiv` / `ceilSqrtDiv` below, justified by
  the algebraic identities noted at each use site.
* Python `round` (banker's rounding, round-half-to-even) is modelled
  exactly; `int(...)` on a non-negative value is `⌊·⌋`, on a negative value
  `⌈·⌉` (truncation toward zero).
* `raise ValueError` becomes `Except.error`; a missing dictionary key
  becomes `Option.none`.
* Calls into external libraries (cv2 decode/encode/resize, PIL decode) are
  not code of this repository; they are modelled as explicit function
  parameters with their documented contracts stated as hypotheses.

All definitions are executable so that concrete runs of the embedded code
can be checked by `decide`/`norm_num`.
-/

set_option maxRecDepth 40000
set_option maxHeartbeats 1000000

namespace ImageProcessor

/-! ### Integer square root

An executable floor-square-root on `ℕ`, by structural recursion on a fuel
argument (`fuel = n` always suffices since the recursion descends `n ↦ n/4`).
Used to embed the `math.sqrt` composites of `smart_resize`. -/

/-- Floor square root with explicit fuel; `isqrtFuel fuel n = ⌊√n⌋` whenever
`n ≤ fuel`. -/
def isqrtFuel : ℕ → ℕ → ℕ
  | 0, _ => 0
  | fuel+1, n =>
    if n = 0 then 0
    else
      let r := 2 * isqrtFuel fuel (n / 4)
      if (r+1)*(r+1) ≤ n then r+1 else r

/-- Floor square root on `ℕ`: the largest `s` with `s*s ≤ n`. -/
def isqrt (n : ℕ) : ℕ := isqrtFuel n n

theorem isqrtFuel_spec : ∀ (fuel n : ℕ), n ≤ fuel →
    isqrtFuel fuel n * isqrtFuel fuel n ≤ n ∧
      n < (isqrtFuel fuel n + 1) * (isqrtFuel fuel n + 1) := by
  intro fuel
  induction fuel with
  | zero =>
    intro n hn
    interval_cases n
    simp [isqrtFuel]
  | succ fuel ih =>
    intro n hn
    by_cases h0 : n = 0
    · subst h0; simp [isqrtFuel]
    · have hpos : 0 < n := Nat.pos_of_ne_zero h0
      have hdiv : n / 4 ≤ fuel := by
        have := Nat.div_lt_self hpos (by norm_num : 1 < 4)
        omega
      obtain ⟨hlo, hhi⟩ := ih (n / 4) hdiv
      have hn4 : 4 * (n / 4) ≤ n := Nat.mul_div_le n 4
      have hn4' : n < 4 * (n / 4) + 4 := by
        have := Nat.mod_lt n (show 0 < 4 by norm_num)
        have := Nat.div_add_mod n 4
        omega
      have hunfold : isqrtFuel (fuel + 1) n =
          if (2 * isqrtFuel fuel (n / 4) + 1) * (2 * isqrtFuel fuel (n / 4) + 1) ≤ n
          then 2 * isqrtFuel fuel (n / 4) + 1 else 2 * isqrtFuel fuel (n / 4) := by
        simp [isqrtFuel, h0]
      rw [hunfold]
      set r := 2 * isqrtFuel fuel (n / 4) with hr
      have hrlo : r * r ≤ n := by
        calc r * r = 4 * (isqrtFuel fuel (n / 4) * isqrtFuel fuel (n / 4)) := by rw [hr]; ring
          _ ≤ 4 * (n / 4) := by omega
          _ ≤ n := Nat.mul_div_le n 4
      have hrhi : n < (r + 2) * (r + 2) := by
        have h1 : (r + 2) * (r + 2)
            = 4 * ((isqrtFuel fuel (n / 4) + 1) * (isqrtFuel fuel (n / 4) + 1)) := by rw [hr]; ring
        have h2 : n / 4 + 1 ≤ (isqrtFuel fuel (n / 4) + 1) * (isqrtFuel fuel (n / 4) + 1) := hhi
        omega
      by_cases hc : (r+1)*(r+1) ≤ n
      · rw [if_pos hc]
        refine ⟨hc, ?_⟩
        have he : r + 1 + 1 = r + 2 := by omega
        rw [he]; exact hrhi
      · rw [if_neg hc]; exact ⟨hrlo, by omega⟩

theorem isqrt_sq_le (n : ℕ) : isqrt n * isqrt n ≤ n :=
  (isqrtFuel_spec n n le_rfl).1

theorem lt_isqrt_succ_sq (n : ℕ) : n < (isqrt n + 1) * (isqrt n + 1) :=
  (isqrtFuel_spec n n le_rfl).2

/-! ### Square roots of rational quantities

In `smart_resize` the code computes `floor_by_factor(x / beta, factor)` and
`ceil_by_factor(x * beta, factor)` where `beta` is a real square root.  Both
composites are of the shape `⌊√(a/b)⌋` resp. `⌈√(a/b)⌉` for naturals `a b`,
which the following executable functions compute. -/

/-- `floorSqrtDiv a b = ⌊√(a/b)⌋` (for `b > 0`), via `⌊√(a/b)⌋ = ⌊⌊√(ab)⌋/b⌋`. -/
def floorSqrtDiv (a b : ℕ) : ℕ := isqrt (a * b) / b

/-- `ceilSqrtDiv a b = ⌈√(a/b)⌉` (for `b > 0`). -/
def ceilSqrtDiv (a b : ℕ) : ℕ :=
  if a ≤ floorSqrtDiv a b * floorSqrtDiv a b * b then floorSqrtDiv a b
  else floorSqrtDiv a b + 1

theorem floorSqrtDiv_sq_le (a b : ℕ) (hb : 0 < b) :
    floorSqrtDiv a b * floorSqrtDiv a b * b ≤ a := by
  set s := floorSqrtDiv a b with hs
  have h1 : s * b ≤ isqrt (a * b) := by
    rw [hs, floorSqrtDiv]
    exact Nat.div_mul_le_self _ _
  have h2 : (s * b) * (s * b) ≤ a * b :=
    le_trans (Nat.mul_le_mul h1 h1) (isqrt_sq_le (a * b))
  have h3 : (s * s * b) * b ≤ a * b := by nlinarith
  exact Nat.le_of_mul_le_mul_right h3 hb

theorem lt_ceil_sq_of_floorSqrtDiv (a b : ℕ) (hb : 0 < b) :
    a < (floorSqrtDiv a b + 1) * (floorSqrtDiv a b + 1) * b := by
  set s := floorSqrtDiv a b with hs
  have h1 : isqrt (a * b) < (s + 1) * b := by
    have hmod := Nat.div_add_mod (isqrt (a * b)) b
    have hlt := Nat.mod_lt (isqrt (a * b)) hb
    rw [hs, floorSqrtDiv]
    nlinarith [hmod, hlt]
  have h1' : isqrt (a * b) + 1 ≤ (s + 1) * b := h1
  have h2 : a * b < ((s + 1) * b) * ((s + 1) * b) :=
    lt_of_lt_of_le (lt_isqrt_succ_sq (a * b)) (Nat.mul_le_mul h1' h1')
  have h3 : a * b < ((s + 1) * (s + 1) * b) * b := by nlinarith
  exact Nat.lt_of_mul_lt_mul_right h3

theorem le_ceilSqrtDiv_sq (a b : ℕ) (hb : 0 < b) :
    a ≤ ceilSqrtDiv a b * ceilSqrtDiv a b * b := by
  rw [ceilSqrtDiv]
  by_cases hc : a ≤ floorSqrtDiv a b * floorSqrtDiv a b * b
  · rw [if_pos hc]; exact hc
  · rw [if_neg hc]
    exact (lt_ceil_sq_of_floorSqrtDiv a b hb).le

/-! ### Rounding primitives (`round_by_factor`, `ceil_by_factor`, `floor_by_factor`)

Source lines 135-145.  `round_by_factor(number, factor) = round(number / factor) * factor`
with Python 3 `round`, i.e. round-half-to-even; in `smart_resize` it is only
applied to integer `number`, so it is embedded on `ℕ` with the tie decided by
the parity of the quotient.  `ceil_by_factor` / `floor_by_factor` receive real
(float) arguments in `smart_resize`; their `ℚ` embeddings are given here, and
their compositions with `math.sqrt` inside `smart_resize` are embedded by
`floorSqrtDiv` / `ceilSqrtDiv` (see `smart_resize`). -/

/-- Source `round_by_factor` specialised to natural `number`:
`round(number / factor) * factor` with round-half-to-even ties. -/
def round_by_factor (number factor : ℕ) : ℕ :=
  (if 2 * (number % factor) < factor then number / factor
   else if factor < 2 * (number % factor) then number / factor + 1
   else if (number / factor) % 2 = 0 then number / factor
   else number / factor + 1) * factor

/-- Source `ceil_by_factor`: `math.ceil(number / factor) * factor`. -/
def ceil_by_factor (number : ℚ) (factor : ℕ) : ℤ :=
  ⌈number / factor⌉ * factor

/-- Source `floor_by_factor`: `math.floor(number / factor) * factor`. -/
def floor_by_factor (number : ℚ) (factor : ℕ) : ℤ :=
  ⌊number / factor⌋ * factor

/-! ### Resolution budgeter (`smart_resize`), source lines 147-180 -/

/-- Failure modes of `smart_resize` (the two `raise ValueError` branches). -/
inductive SmartResizeError where
  | invalidDimensions
  | aspectRatioTooExtreme
deriving DecidableEq

instance {ε α : Type} [DecidableEq ε] [DecidableEq α] : DecidableEq (Except ε α) := fun x y =>
  match x, y with
  | .error e, .error f => decidable_of_iff (e = f) (by simp)
  | .error _, .ok _ => isFalse (by simp)
  | .ok _, .error _ => isFalse (by simp)
  | .ok a, .ok b => decidable_of_iff (a = b) (by simp)

/-- The long-side pre-clamp of `smart_resize` (source lines 165-168):
if the longer side exceeds `max_long_side`, both dimensions are divided by
`beta = max(h,w)/max_long_side` and truncated, i.e. `d ↦ ⌊d·mls/max(h,w)⌋`. -/
def preclamp (h w mls : ℕ) : ℕ × ℕ :=
  if mls < max h w then (h * mls / max h w, w * mls / max h w) else (h, w)

/-- Source `smart_resize` (lines 147-180), with exact real arithmetic.

In the over-budget branch the code computes
`floor_by_factor(h / beta, factor)` with `beta = sqrt(h*w/max_pixels)`;
since `h/beta/factor = sqrt(h*max_pixels/(factor^2*w))`, that equals
`factor * floorSqrtDiv (h*max_pixels) (factor*factor*w)`, and symmetrically
for the under-budget branch with `ceil_by_factor(h * beta, factor)`,
`beta = sqrt(min_pixels/(h*w))`, which equals
`factor * ceilSqrtDiv (h*min_pixels) (factor*factor*w)`. -/
def smart_resize (height width : ℤ) (factor min_pixels max_pixels max_long_side : ℕ) :
    Except SmartResizeError (ℕ × ℕ) :=
  if height < 2 ∨ width < 2 then .error .invalidDimensions
  else
    let h0 := height.toNat
    let w0 := width.toNat
    if 200 * min h0 w0 < max h0 w0 then .error .aspectRatioTooExtreme
    else
      let h := (preclamp h0 w0 max_long_side).1
      let w := (preclamp h0 w0 max_long_side).2
      let h_bar := round_by_factor h factor
      let w_bar := round_by_factor w factor
      if max_pixels < h_bar * w_bar then
        .ok (factor * floorSqrtDiv (h * max_pixels) (factor * factor * w),
             factor * floorSqrtDiv (w * max_pixels) (factor * factor * h))
      else if h_bar * w_bar < min_pixels then
        .ok (factor * ceilSqrtDiv (h * min_pixels) (factor * factor * w),
             factor * ceilSqrtDiv (w * min_pixels) (factor * factor * h))
      else .ok (h_bar, w_bar)

theorem preclamp_pos (h w mls : ℕ) (hh : 2 ≤ h) (hw : 2 ≤ w)
    (hratio : max h w ≤ 200 * min h w) (hmls : 200 ≤ mls) :
    0 < (preclamp h w mls).1 ∧ 0 < (preclamp h w mls).2 := by
  rw [preclamp]
  by_cases hc : mls < max h w
  · rw [if_pos hc]
    constructor
    · apply Nat.div_pos ?_ (by omega)
      calc max h w ≤ 200 * min h w := hratio
        _ ≤ 200 * h := by have := min_le_left h w; omega
        _ ≤ mls * h := Nat.mul_le_mul_right h hmls
        _ = h * mls := Nat.mul_comm _ _
    · apply Nat.div_pos ?_ (by omega)
      calc max h w ≤ 200 * min h w := hratio
        _ ≤ 200 * w := by have := min_le_right h w; omega
        _ ≤ mls * w := Nat.mul_le_mul_right w hmls
        _ = w * mls := Nat.mul_comm _ _
  · rw [if_neg hc]; exact ⟨by simp; omega, by simp; omega⟩

theorem round_by_factor_dvd (number factor : ℕ) : factor ∣ round_by_factor number factor := by
  rw [round_by_factor]
  exact dvd_mul_left factor _

/-- C1: for `height, width ≥ 2`, aspect ratio at most 200 and a positive grid
factor (with a positive pixel budget and a long-side clamp of at least 200,
as in every call site), `smart_resize` succeeds and both returned dimensions
are (non-negative) integer multiples of `factor`. -/
theorem smart_resize_returns_factor_multiples
    (height width : ℤ) (factor min_pixels max_pixels max_long_side : ℕ)
    (hh : 2 ≤ height) (hw : 2 ≤ width)
    (hratio : max height width ≤ 200 * min height width)
    (hf : 0 < factor) (hM : 0 < max_pixels) (hmls : 200 ≤ max_long_side) :
    ∃ a b : ℕ, smart_resize height width factor min_pixels max_pixels max_long_side
        = .ok (a, b) ∧ factor ∣ a ∧ factor ∣ b := by
  simp only [smart_resize]
  rw [if_neg (by omega)]
  rw [if_neg (by omega : ¬ 200 * min height.toNat width.toNat < max height.toNat width.toNat)]
  set p := preclamp height.toNat width.toNat max_long_side with hp
  by_cases hc1 : max_pixels < round_by_factor p.1 factor * round_by_factor p.2 factor
  · rw [if_pos hc1]
    exact ⟨_, _, rfl, dvd_mul_right factor _, dvd_mul_right factor _⟩
  · rw [if_neg hc1]
    by_cases hc2 : round_by_factor p.1 factor * round_by_factor p.2 factor < min_pixels
    · rw [if_pos hc2]
      exact ⟨_, _, rfl, dvd_mul_right factor _, dvd_mul_right factor _⟩
    · rw [if_neg hc2]
      exact ⟨_, _, rfl, round_by_factor_dvd _ _, round_by_factor_dvd _ _⟩

theorem smart_resize_returns_factor_multiples_witness :
    ∃ a b : ℕ, smart_resize 1000 2000 28 3136 1003520 8192 = .ok (a, b) ∧ 28 ∣ a ∧ 28 ∣ b :=
  smart_resize_returns_factor_multiples 1000 2000 28 3136 1003520 8192
    (by norm_num) (by norm_num) (by norm_num) (by norm_num) (by norm_num) (by norm_num)

/-- C5: whenever `height < 2` or `width < 2`, `smart_resize` fails with the
invalid-dimensions error (the guard is the first statement of the function). -/
theorem smart_resize_invalid_dims_error
    (height width : ℤ) (factor min_pixels max_pixels max_long_side : ℕ)
    (h : height < 2 ∨ width < 2) :
    smart_resize height width factor min_pixels max_pixels max_long_side
      = .error .invalidDimensions := by
  simp only [smart_resize]
  rw [if_pos h]

theorem smart_resize_invalid_dims_error_witness :
    smart_resize 1 10 28 3136 1003520 8192 = .error .invalidDimensions :=
  smart_resize_invalid_dims_error 1 10 28 3136 1003520 8192 (Or.inl (by norm_num))

/-- C6: for `height, width ≥ 2`, `smart_resize` fails with the
aspect-ratio error exactly when `max(height,width) / min(height,width) > 200`,
i.e. `max > 200 * min` in exact arithmetic. -/
theorem smart_resize_aspect_error_iff
    (height width : ℤ) (factor min_pixels max_pixels max_long_side : ℕ)
    (hh : 2 ≤ height) (hw : 2 ≤ width) :
    (smart_resize height width factor min_pixels max_pixels max_long_side
        = .error .aspectRatioTooExtreme)
      ↔ 200 * min height width < max height width := by
  simp only [smart_resize]
  rw [if_neg (by omega)]
  by_cases hc : 200 * min height.toNat width.toNat < max height.toNat width.toNat
  · rw [if_pos hc]
    exact ⟨fun _ => by omega, fun _ => rfl⟩
  · rw [if_neg hc]
    constructor
    · intro hEq
      exfalso
      split at hEq
      · exact Except.noConfusion hEq
      · split at hEq
        · exact Except.noConfusion hEq
        · exact Except.noConfusion hEq
    · intro hlt
      exfalso
      omega

theorem smart_resize_aspect_error_iff_witness :
    smart_resize 402 2 28 3136 1003520 8192 = .error .aspectRatioTooExtreme :=
  (smart_resize_aspect_error_iff 402 2 28 3136 1003520 8192
    (by norm_num) (by norm_num)).mpr (by norm_num)

/-- C2 (counterexample): on the valid input `height = 1000000`, `width = 5000`
(aspect ratio exactly 200), `factor = 28`, `min_pixels = max_pixels = 300000`,
default `max_long_side = 8192`, the grid-aligned area taken at the *original*
dimensions (`round_by_factor 1000000 28 * round_by_factor 5000 28`) exceeds
`max_pixels`, yet `smart_resize` returns `(7840, 56)` whose area
`439040 > 300000 = max_pixels`: the long-side pre-clamp puts the clamped
grid-aligned area below `min_pixels`, so the grow branch runs and overshoots
the (tight) budget. -/
theorem smart_resize_budget_counterexample :
    smart_resize 1000000 5000 28 300000 300000 8192 = .ok (7840, 56) ∧
      300000 < round_by_factor 1000000 28 * round_by_factor 5000 28 ∧
      ¬ 7840 * 56 ≤ 300000 := by
  refine ⟨by decide, by decide, by decide⟩

/-- C2 (amended): the budget bounds hold for the grid-aligned area computed
on the dimensions *after* the long-side pre-clamp (which is the area the code
actually compares against the budget): if that area exceeds `max_pixels` the
returned area is at most `max_pixels`, and if it is below `min_pixels` the
returned area is at least `min_pixels`. -/
theorem smart_resize_budget_bounds
    (height width : ℤ) (factor min_pixels max_pixels max_long_side : ℕ)
    (hh : 2 ≤ height) (hw : 2 ≤ width)
    (hratio : max height width ≤ 200 * min height width)
    (hf : 0 < factor) (hm : 0 < min_pixels) (hmM : min_pixels ≤ max_pixels)
    (hmls : 200 ≤ max_long_side) (a b : ℕ)
    (hok : smart_resize height width factor min_pixels max_pixels max_long_side = .ok (a, b)) :
    (max_pixels <
        round_by_factor (preclamp height.toNat width.toNat max_long_side).1 factor
          * round_by_factor (preclamp height.toNat width.toNat max_long_side).2 factor →
      a * b ≤ max_pixels) ∧
    (round_by_factor (preclamp height.toNat width.toNat max_long_side).1 factor
          * round_by_factor (preclamp height.toNat width.toNat max_long_side).2 factor
        < min_pixels →
      min_pixels ≤ a * b) := by
  have hratio' : max height.toNat width.toNat ≤ 200 * min height.toNat width.toNat := by omega
  obtain ⟨hp1, hp2⟩ := preclamp_pos height.toNat width.toNat max_long_side
    (by omega) (by omega) hratio' hmls
  simp only [smart_resize] at hok
  rw [if_neg (by omega)] at hok
  rw [if_neg (by omega : ¬ 200 * min height.toNat width.toNat < max height.toNat width.toNat)]
    at hok
  set p := preclamp height.toNat width.toNat max_long_side with hp
  set p1 := p.1 with hp1d
  set p2 := p.2 with hp2d
  constructor
  · intro hgt
    rw [if_pos hgt] at hok
    simp only [Except.ok.injEq, Prod.mk.injEq] at hok
    obtain ⟨ha, hb⟩ := hok
    subst ha; subst hb
    set sh := floorSqrtDiv (p1 * max_pixels) (factor * factor * p2) with hsh
    set sw := floorSqrtDiv (p2 * max_pixels) (factor * factor * p1) with hsw
    have h1 := floorSqrtDiv_sq_le (p1 * max_pixels) (factor * factor * p2)
      (by positivity)
    have h2 := floorSqrtDiv_sq_le (p2 * max_pixels) (factor * factor * p1)
      (by positivity)
    rw [← hsh] at h1
    rw [← hsw] at h2
    have key := Nat.mul_le_mul h1 h2
    have key2 : ((sh * sw * (factor * factor)) * (sh * sw * (factor * factor))) * (p1 * p2)
        ≤ (max_pixels * max_pixels) * (p1 * p2) := by nlinarith [key]
    have key3 : (sh * sw * (factor * factor)) * (sh * sw * (factor * factor))
        ≤ max_pixels * max_pixels :=
      Nat.le_of_mul_le_mul_right key2 (by positivity)
    have key4 : sh * sw * (factor * factor) ≤ max_pixels := by
      by_contra hcon
      have := Nat.mul_lt_mul_of_lt_of_le (not_le.mp hcon) (not_le.mp hcon).le (by omega)
      omega
    calc factor * sh * (factor * sw) = sh * sw * (factor * factor) := by ring
      _ ≤ max_pixels := key4
  · intro hlt
    have hngt : ¬ max_pixels < round_by_factor p1 factor * round_by_factor p2 factor := by omega
    rw [if_neg hngt, if_pos hlt] at hok
    simp only [Except.ok.injEq, Prod.mk.injEq] at hok
    obtain ⟨ha, hb⟩ := hok
    subst ha; subst hb
    set sh := ceilSqrtDiv (p1 * min_pixels) (factor * factor * p2) with hsh
    set sw := ceilSqrtDiv (p2 * min_pixels) (factor * factor * p1) with hsw
    have h1 := le_ceilSqrtDiv_sq (p1 * min_pixels) (factor * factor * p2)
      (by positivity)
    have h2 := le_ceilSqrtDiv_sq (p2 * min_pixels) (factor * factor * p1)
      (by positivity)
    rw [← hsh] at h1
    rw [← hsw] at h2
    have key := Nat.mul_le_mul h1 h2
    have key2 : (min_pixels * min_pixels) * (p1 * p2)
        ≤ ((sh * sw * (factor * factor)) * (sh * sw * (factor * factor))) * (p1 * p2) := by
      nlinarith [key]
    have key3 : min_pixels * min_pixels
        ≤ (sh * sw * (factor * factor)) * (sh * sw * (factor * factor)) :=
      Nat.le_of_mul_le_mul_right key2 (by positivity)
    have key4 : min_pixels ≤ sh * sw * (factor * factor) := by
      by_contra hcon
      have := Nat.mul_lt_mul_of_lt_of_le (not_le.mp hcon) (not_le.mp hcon).le
        (by omega : 0 < min_pixels)
      omega
    calc min_pixels ≤ sh * sw * (factor * factor) := key4
      _ = factor * sh * (factor * sw) := by ring

theorem smart_resize_budget_bounds_witness :
    smart_resize 10000 10000 28 3136 1003520 8192 = .ok (980, 980) ∧
      1003520 < round_by_factor (preclamp 10000 10000 8192).1 28
        * round_by_factor (preclamp 10000 10000 8192).2 28 ∧
      980 * 980 ≤ 1003520 := by
  refine ⟨by decide, by decide, ?_⟩
  exact ((smart_resize_budget_bounds 10000 10000 28 3136 1003520 8192
    (by norm_num) (by norm_num) (by norm_num) (by norm_num) (by norm_num) (by norm_num)
    (by norm_num) 980 980 (by decide)).1 (by decide))

/-! ### Token-budget sizer (`update_image_size`), source lines 182-209

The Python image element is a `dict`; it is embedded as a total lookup
function `String → Option ℤ` (the relevant values are integers).  The
in-place `image_ele.update({...})` followed by `return image_ele` is
state-passing in the embedding: the function returns the updated mapping,
which overrides exactly the three written keys. -/

/-- Source `update_image_size`: reads `height`/`width` (a missing key — a
Python `KeyError` — or a `smart_resize` failure yields `none`), calls
`smart_resize` with `factor = merge_base*patch_size`,
`min_pixels = pixels_per_token*min_tokens`, `max_pixels =
pixels_per_token*max_tokens`, `max_long_side = 50000`, and writes
`resized_height`, `resized_width` and `seq_len` back into the element. -/
def update_image_size (image_ele : String → Option ℤ)
    (min_tokens max_tokens merge_base patch_size : ℕ) :
    Option (String → Option ℤ) :=
  match image_ele "height", image_ele "width" with
  | some height, some width =>
    let pixels_per_token := patch_size * patch_size * merge_base * merge_base
    match smart_resize height width (merge_base * patch_size)
        (pixels_per_token * min_tokens) (pixels_per_token * max_tokens) 50000 with
    | .ok (resized_height, resized_width) =>
      some (fun k =>
        if k = "resized_height" then some (resized_height : ℤ)
        else if k = "resized_width" then some (resized_width : ℤ)
        else if k = "seq_len" then
          some ((resized_height * resized_width / pixels_per_token + 2 : ℕ) : ℤ)
        else image_ele k)
    | .error _ => none
  | _, _ => none

/-- C4: on an element carrying integer `height`/`width` on which
`smart_resize` (called with `factor = merge_base*patch_size`,
`min_pixels = pixels_per_token*min_tokens`,
`max_pixels = pixels_per_token*max_tokens`, where
`pixels_per_token = patch_size^2*merge_base^2`) succeeds with `(rh, rw)`,
`update_image_size` succeeds and the returned element carries
`resized_height = rh`, `resized_width = rw` and
`seq_len = rh*rw / pixels_per_token + 2`. -/
theorem update_image_size_spec
    (image_ele : String → Option ℤ) (min_tokens max_tokens merge_base patch_size : ℕ)
    (height width : ℤ) (rh rw : ℕ)
    (hh : image_ele "height" = some height) (hw : image_ele "width" = some width)
    (hres : smart_resize height width (merge_base * patch_size)
        ((patch_size * patch_size * merge_base * merge_base) * min_tokens)
        ((patch_size * patch_size * merge_base * merge_base) * max_tokens) 50000
      = .ok (rh, rw)) :
    ∃ out, update_image_size image_ele min_tokens max_tokens merge_base patch_size = some out
      ∧ out "resized_height" = some (rh : ℤ)
      ∧ out "resized_width" = some (rw : ℤ)
      ∧ out "seq_len"
          = some ((rh * rw / (patch_size * patch_size * merge_base * merge_base) + 2 : ℕ) : ℤ) := by
  rw [update_image_size, hh, hw]
  simp only [hres]
  refine ⟨_, rfl, ?_, ?_, ?_⟩
  · simp
  · simp
  · simp

theorem update_image_size_spec_witness :
    ∃ out, update_image_size
        (fun k => if k = "height" then some 700 else if k = "width" then some 700 else none)
        1 12800 2 14 = some out
      ∧ out "resized_height" = some 700
      ∧ out "resized_width" = some 700
      ∧ out "seq_len" = some 627 := by
  have h := update_image_size_spec
    (fun k => if k = "height" then some 700 else if k = "width" then some 700 else none)
    1 12800 2 14 700 700 700 700 (by simp) (by simp) (by decide)
  simpa using h

/-- C10: whenever `update_image_size` succeeds, every key other than
`resized_height`, `resized_width` and `seq_len` is mapped by the returned
element to exactly the value the input element mapped it to (the Python code
mutates the passed-in dict in place via `dict.update` and returns that same
dict; the embedding renders this as the returned mapping agreeing with the
input mapping away from the three written keys). -/
theorem update_image_size_frame
    (image_ele : String → Option ℤ) (min_tokens max_tokens merge_base patch_size : ℕ)
    (out : String → Option ℤ)
    (hout : update_image_size image_ele min_tokens max_tokens merge_base patch_size = some out)
    (k : String) (h1 : k ≠ "resized_height") (h2 : k ≠ "resized_width") (h3 : k ≠ "seq_len") :
    out k = image_ele k := by
  rw [update_image_size] at hout
  cases hgetH : image_ele "height" with
  | none => rw [hgetH] at hout; exact Option.noConfusion hout
  | some height =>
    cases hgetW : image_ele "width" with
    | none => rw [hgetH, hgetW] at hout; exact Option.noConfusion hout
    | some width =>
      rw [hgetH, hgetW] at hout
      simp only at hout
      cases hres : smart_resize height width (merge_base * patch_size)
          ((patch_size * patch_size * merge_base * merge_base) * min_tokens)
          ((patch_size * patch_size * merge_base * merge_base) * max_tokens) 50000 with
      | error e => rw [hres] at hout; exact Option.noConfusion hout
      | ok pair =>
        rw [hres] at hout
        obtain ⟨rh, rw'⟩ := pair
        simp only [Option.some.injEq] at hout
        subst hout
        simp only [if_neg h1, if_neg h2, if_neg h3]

/-- Concrete image element used by the frame witness: raw size 700x700. -/
def frameWitnessEle : String → Option ℤ := fun k =>
  if k = "height" then some 700 else if k = "width" then some 700 else none

/-- Value of `update_image_size frameWitnessEle 1 12800 2 14`. -/
def frameWitnessOut : String → Option ℤ := fun k =>
  if k = "resized_height" then some ((700 : ℕ) : ℤ)
  else if k = "resized_width" then some ((700 : ℕ) : ℤ)
  else if k = "seq_len" then some ((700 * 700 / (14 * 14 * 2 * 2) + 2 : ℕ) : ℤ)
  else frameWitnessEle k

theorem update_image_size_frame_witness :
    update_image_size frameWitnessEle 1 12800 2 14 = some frameWitnessOut ∧
      frameWitnessOut "height" = frameWitnessEle "height" := by
  have hcall : update_image_size frameWitnessEle 1 12800 2 14 = some frameWitnessOut := by
    rfl
  exact ⟨hcall, update_image_size_frame frameWitnessEle 1 12800 2 14 frameWitnessOut hcall
    "height" (by decide) (by decide) (by decide)⟩

/-! ### Coordinate conversion (source lines 215-366)

Coordinate values are floats; they are embedded as `ℚ`.  The image element's
four geometry keys become a structure (each conversion branch reads only the
keys its formats need, so an element lacking the `resized_*` keys is only
ever passed to branches that do not read them). -/

/-- Python `int(...)` on a real value: truncation toward zero. -/
def pyInt (q : ℚ) : ℤ := if q < 0 then ⌈q⌉ else ⌊q⌋

/-- Python `round(x)` to an integer: round-half-to-even. -/
def pyRound (q : ℚ) : ℤ :=
  if q - ⌊q⌋ < 1/2 then ⌊q⌋
  else if 1/2 < q - ⌊q⌋ then ⌊q⌋ + 1
  else if ⌊q⌋ % 2 = 0 then ⌊q⌋ else ⌊q⌋ + 1

/-- Python `round(x, 1)`: round to one decimal place. -/
def pyRound1 (q : ℚ) : ℚ := (pyRound (q * 10) : ℚ) / 10

/-- The geometry keys of an image element read by the coordinate converter. -/
structure ImageEle where
  width : ℚ
  height : ℚ
  resized_width : ℚ
  resized_height : ℚ

/-- A box `(x1, y1, x2, y2)`. -/
structure Bbox where
  x1 : ℚ
  y1 : ℚ
  x2 : ℚ
  y2 : ℚ

/-- A point `(x, y)`. -/
structure Point where
  x : ℚ
  y : ℚ

/-- Unknown-format failures of the converters (the two `raise ValueError`s). -/
inductive ConvertError where
  | unknownTgtFormat (tgt : String)
  | unknownSrcFormat (src : String)

/-- Source `_convert_bbox_from_abs_origin` (lines 215-251). -/
def convert_bbox_from_abs_origin (bbox : Bbox) (image_ele : ImageEle) (tgt_format : String) :
    Except ConvertError Bbox :=
  if tgt_format = "abs_origin" then
    .ok ⟨(pyInt bbox.x1 : ℚ), (pyInt bbox.y1 : ℚ), (pyInt bbox.x2 : ℚ), (pyInt bbox.y2 : ℚ)⟩
  else if tgt_format = "abs_resized" then
    .ok ⟨(pyInt (bbox.x1 / image_ele.width * image_ele.resized_width) : ℚ),
         (pyInt (bbox.y1 / image_ele.height * image_ele.resized_height) : ℚ),
         (pyInt (bbox.x2 / image_ele.width * image_ele.resized_width) : ℚ),
         (pyInt (bbox.y2 / image_ele.height * image_ele.resized_height) : ℚ)⟩
  else if tgt_format = "qwen-vl" then
    .ok ⟨(pyInt (bbox.x1 / image_ele.width * 999) : ℚ),
         (pyInt (bbox.y1 / image_ele.height * 999) : ℚ),
         (pyInt (bbox.x2 / image_ele.width * 999) : ℚ),
         (pyInt (bbox.y2 / image_ele.height * 999) : ℚ)⟩
  else if tgt_format = "rel" then
    .ok ⟨bbox.x1 / image_ele.width, bbox.y1 / image_ele.height,
         bbox.x2 / image_ele.width, bbox.y2 / image_ele.height⟩
  else if tgt_format = "molmo" then
    .ok ⟨pyRound1 (bbox.x1 / image_ele.width * 100),
         pyRound1 (bbox.y1 / image_ele.height * 100),
         pyRound1 (bbox.x2 / image_ele.width * 100),
         pyRound1 (bbox.y2 / image_ele.height * 100)⟩
  else .error (.unknownTgtFormat tgt_format)

/-- Source `_convert_bbox_to_abs_origin` (lines 253-289); the Python function
returns `List[int]`, embedded as the `ℚ`-coerced integers. -/
def convert_bbox_to_abs_origin (bbox : Bbox) (image_ele : ImageEle) (src_format : String) :
    Except ConvertError Bbox :=
  if src_format = "abs_origin" then
    .ok ⟨(pyInt bbox.x1 : ℚ), (pyInt bbox.y1 : ℚ), (pyInt bbox.x2 : ℚ), (pyInt bbox.y2 : ℚ)⟩
  else if src_format = "abs_resized" then
    .ok ⟨(pyInt (bbox.x1 / image_ele.resized_width * image_ele.width) : ℚ),
         (pyInt (bbox.y1 / image_ele.resized_height * image_ele.height) : ℚ),
         (pyInt (bbox.x2 / image_ele.resized_width * image_ele.width) : ℚ),
         (pyInt (bbox.y2 / image_ele.resized_height * image_ele.height) : ℚ)⟩
  else if src_format = "qwen-vl" then
    .ok ⟨(pyInt (bbox.x1 / 999 * image_ele.width) : ℚ),
         (pyInt (bbox.y1 / 999 * image_ele.height) : ℚ),
         (pyInt (bbox.x2 / 999 * image_ele.width) : ℚ),
         (pyInt (bbox.y2 / 999 * image_ele.height) : ℚ)⟩
  else if src_format = "rel" then
    .ok ⟨(pyInt (bbox.x1 * image_ele.width) : ℚ),
         (pyInt (bbox.y1 * image_ele.height) : ℚ),
         (pyInt (bbox.x2 * image_ele.width) : ℚ),
         (pyInt (bbox.y2 * image_ele.height) : ℚ)⟩
  else if src_format = "molmo" then
    .ok ⟨(pyInt (bbox.x1 / 100 * image_ele.width) : ℚ),
         (pyInt (bbox.y1 / 100 * image_ele.height) : ℚ),
         (pyInt (bbox.x2 / 100 * image_ele.width) : ℚ),
         (pyInt (bbox.y2 / 100 * image_ele.height) : ℚ)⟩
  else .error (.unknownSrcFormat src_format)

/-- Source `convert_bbox_format` (lines 291-305): route through `abs_origin`. -/
def convert_bbox_format (bbox : Bbox) (image_ele : ImageEle) (src_format tgt_format : String) :
    Except ConvertError Bbox :=
  match convert_bbox_to_abs_origin bbox image_ele src_format with
  | .ok b => convert_bbox_from_abs_origin b image_ele tgt_format
  | .error e => .error e

/-- Source `_convert_point_from_abs_origin` (lines 307-329). -/
def convert_point_from_abs_origin (point : Point) (image_ele : ImageEle) (tgt_format : String) :
    Except ConvertError Point :=
  if tgt_format = "abs_origin" then
    .ok ⟨(pyInt point.x : ℚ), (pyInt point.y : ℚ)⟩
  else if tgt_format = "abs_resized" then
    .ok ⟨(pyInt (point.x / image_ele.width * image_ele.resized_width) : ℚ),
         (pyInt (point.y / image_ele.height * image_ele.resized_height) : ℚ)⟩
  else if tgt_format = "qwen-vl" then
    .ok ⟨(pyInt (point.x / image_ele.width * 999) : ℚ),
         (pyInt (point.y / image_ele.height * 999) : ℚ)⟩
  else if tgt_format = "rel" then
    .ok ⟨point.x / image_ele.width, point.y / image_ele.height⟩
  else if tgt_format = "molmo" then
    .ok ⟨pyRound1 (point.x / image_ele.width * 100),
         pyRound1 (point.y / image_ele.height * 100)⟩
  else .error (.unknownTgtFormat tgt_format)

/-- Source `_convert_point_to_abs_origin` (lines 331-350). -/
def convert_point_to_abs_origin (point : Point) (image_ele : ImageEle) (src_format : String) :
    Except ConvertError Point :=
  if src_format = "abs_origin" then
    .ok ⟨(pyInt point.x : ℚ), (pyInt point.y : ℚ)⟩
  else if src_format = "abs_resized" then
    .ok ⟨(pyInt (point.x / image_ele.resized_width * image_ele.width) : ℚ),
         (pyInt (point.y / image_ele.resized_height * image_ele.height) : ℚ)⟩
  else if src_format = "qwen-vl" then
    .ok ⟨(pyInt (point.x / 999 * image_ele.width) : ℚ),
         (pyInt (point.y / 999 * image_ele.height) : ℚ)⟩
  else if src_format = "rel" then
    .ok ⟨(pyInt (point.x * image_ele.width) : ℚ),
         (pyInt (point.y * image_ele.height) : ℚ)⟩
  else if src_format = "molmo" then
    .ok ⟨(pyInt (point.x / 100 * image_ele.width) : ℚ),
         (pyInt (point.y / 100 * image_ele.height) : ℚ)⟩
  else .error (.unknownSrcFormat src_format)

/-- Source `convert_point_format` (lines 352-366): route through `abs_origin`. -/
def convert_point_format (point : Point) (image_ele : ImageEle) (src_format tgt_format : String) :
    Except ConvertError Point :=
  match convert_point_to_abs_origin point image_ele src_format with
  | .ok p => convert_point_from_abs_origin p image_ele tgt_format
  | .error e => .error e

theorem pyInt_of_nonneg (q : ℚ) (h : 0 ≤ q) : pyInt q = ⌊q⌋ := if_neg (not_lt.mpr h)

theorem pyInt_intCast (n : ℤ) : pyInt (n : ℚ) = n := by
  rw [pyInt]
  by_cases h : (n : ℚ) < 0
  · rw [if_pos h, Int.ceil_intCast]
  · rw [if_neg h, Int.floor_intCast]

theorem pyRound_bounds (q : ℚ) : q - 1/2 ≤ (pyRound q : ℚ) ∧ (pyRound q : ℚ) ≤ q + 1/2 := by
  have hf := Int.floor_le q
  have hf2 := Int.lt_floor_add_one q
  rw [pyRound]
  split_ifs with hc1 hc2 hc3 <;> constructor <;> push_cast <;> linarith

theorem pyRound1_bounds (q : ℚ) : q - 1/20 ≤ pyRound1 q ∧ pyRound1 q ≤ q + 1/20 := by
  obtain ⟨h1, h2⟩ := pyRound_bounds (q * 10)
  rw [pyRound1]
  constructor <;> [linarith; linarith]

/-- Round trip through a scaled integer format (`qwen-vl` with scale 999,
`abs_resized` with scale `resized_dim`): converting in with
`int(v / S * d)` and back out with `int(a / d * S)` loses at most
`S/d + 1` in the source format's units. -/
theorem scale_roundtrip (v d S : ℚ) (hv : 0 ≤ v) (hd : 0 < d) (hS : 0 < S) :
    ((pyInt ((pyInt (v / S * d) : ℚ) / d * S) : ℚ) ≤ v) ∧
      (v - S / d - 1 < (pyInt ((pyInt (v / S * d) : ℚ) / d * S) : ℚ)) := by
  have h0 : (0:ℚ) ≤ v / S * d := by positivity
  rw [pyInt_of_nonneg _ h0]
  have ha0 : (0:ℚ) ≤ (⌊v / S * d⌋ : ℚ) := by
    exact_mod_cast Int.floor_nonneg.mpr h0
  have h1 : (0:ℚ) ≤ (⌊v / S * d⌋ : ℚ) / d * S := by positivity
  rw [pyInt_of_nonneg _ h1]
  have haLe : (⌊v / S * d⌋ : ℚ) ≤ v / S * d := Int.floor_le _
  have haGt : v / S * d - 1 < (⌊v / S * d⌋ : ℚ) := Int.sub_one_lt_floor _
  have key : (⌊v / S * d⌋ : ℚ) / d * S ≤ v := by
    calc (⌊v / S * d⌋ : ℚ) / d * S = (⌊v / S * d⌋ : ℚ) * (S / d) := by ring
      _ ≤ (v / S * d) * (S / d) := by
          exact mul_le_mul_of_nonneg_right haLe (by positivity)
      _ = v := by field_simp
  have key2 : v - S / d < (⌊v / S * d⌋ : ℚ) / d * S := by
    calc v - S / d = (v / S * d - 1) * (S / d) := by field_simp
      _ < (⌊v / S * d⌋ : ℚ) * (S / d) := by
          exact mul_lt_mul_of_pos_right haGt (by positivity)
      _ = (⌊v / S * d⌋ : ℚ) / d * S := by ring
  refine ⟨le_trans (Int.floor_le _) key, ?_⟩
  have := Int.sub_one_lt_floor ((⌊v / S * d⌋ : ℚ) / d * S)
  linarith

/-- Round trip through `rel`: `int(v * d)` in, `a / d` out; loses less than
`1/d`. -/
theorem rel_roundtrip (v d : ℚ) (hv : 0 ≤ v) (hd : 0 < d) :
    ((pyInt (v * d) : ℚ) / d ≤ v) ∧ (v - 1 / d < (pyInt (v * d) : ℚ) / d) := by
  have h0 : (0:ℚ) ≤ v * d := by positivity
  rw [pyInt_of_nonneg _ h0]
  have h1 : (⌊v * d⌋ : ℚ) ≤ v * d := Int.floor_le _
  have h2 : v * d - 1 < (⌊v * d⌋ : ℚ) := Int.sub_one_lt_floor _
  constructor
  · rw [div_le_iff hd]; linarith
  · rw [lt_div_iff hd]
    have h3 : (v - 1 / d) * d = v * d - 1 := by field_simp
    rw [h3]; exact h2

/-- Round trip through `molmo`: `int(v / 100 * d)` in,
`round(a / d * 100, 1)` out; loses at most `100/d + 1/20`. -/
theorem molmo_roundtrip (v d : ℚ) (hv : 0 ≤ v) (hd : 0 < d) :
    (pyRound1 ((pyInt (v / 100 * d) : ℚ) / d * 100) ≤ v + 1/20) ∧
      (v - 100 / d - 1/20 < pyRound1 ((pyInt (v / 100 * d) : ℚ) / d * 100)) := by
  have h0 : (0:ℚ) ≤ v / 100 * d := by positivity
  rw [pyInt_of_nonneg _ h0]
  have hre : v / 100 * d = v * d / 100 := by ring
  have haLe : (⌊v / 100 * d⌋ : ℚ) ≤ v * d / 100 := hre ▸ Int.floor_le _
  have haGt : v * d / 100 - 1 < (⌊v / 100 * d⌋ : ℚ) := by
    have := Int.sub_one_lt_floor (v / 100 * d)
    linarith [this, hre.le, hre.ge]
  have hup : (⌊v / 100 * d⌋ : ℚ) / d * 100 ≤ v := by
    rw [div_mul_eq_mul_div, div_le_iff hd]
    linarith
  have hlow : v - 100 / d < (⌊v / 100 * d⌋ : ℚ) / d * 100 := by
    rw [div_mul_eq_mul_div, lt_div_iff hd]
    have h3 : (v - 100 / d) * d = v * d - 100 := by field_simp
    rw [h3]
    linarith
  obtain ⟨hb1, hb2⟩ := pyRound1_bounds ((⌊v / 100 * d⌋ : ℚ) / d * 100)
  exact ⟨by linarith, by linarith⟩

/-! Evaluation of the converters when source and target format agree. -/

theorem convert_point_same_abs_origin (pt : Point) (e : ImageEle) :
    convert_point_format pt e "abs_origin" "abs_origin" =
      .ok ⟨(pyInt (pyInt pt.x : ℚ) : ℚ), (pyInt (pyInt pt.y : ℚ) : ℚ)⟩ := by
  simp [convert_point_format, convert_point_to_abs_origin, convert_point_from_abs_origin]

theorem convert_point_same_abs_resized (pt : Point) (e : ImageEle) :
    convert_point_format pt e "abs_resized" "abs_resized" =
      .ok ⟨(pyInt ((pyInt (pt.x / e.resized_width * e.width) : ℚ)
              / e.width * e.resized_width) : ℚ),
           (pyInt ((pyInt (pt.y / e.resized_height * e.height) : ℚ)
              / e.height * e.resized_height) : ℚ)⟩ := by
  simp [convert_point_format, convert_point_to_abs_origin, convert_point_from_abs_origin]

theorem convert_point_same_qwen (pt : Point) (e : ImageEle) :
    convert_point_format pt e "qwen-vl" "qwen-vl" =
      .ok ⟨(pyInt ((pyInt (pt.x / 999 * e.width) : ℚ) / e.width * 999) : ℚ),
           (pyInt ((pyInt (pt.y / 999 * e.height) : ℚ) / e.height * 999) : ℚ)⟩ := by
  simp [convert_point_format, convert_point_to_abs_origin, convert_point_from_abs_origin]

theorem convert_point_same_rel (pt : Point) (e : ImageEle) :
    convert_point_format pt e "rel" "rel" =
      .ok ⟨(pyInt (pt.x * e.width) : ℚ) / e.width,
           (pyInt (pt.y * e.height) : ℚ) / e.height⟩ := by
  simp [convert_point_format, convert_point_to_abs_origin, convert_point_from_abs_origin]

theorem convert_point_same_molmo (pt : Point) (e : ImageEle) :
    convert_point_format pt e "molmo" "molmo" =
      .ok ⟨pyRound1 ((pyInt (pt.x / 100 * e.width) : ℚ) / e.width * 100),
           pyRound1 ((pyInt (pt.y / 100 * e.height) : ℚ) / e.height * 100)⟩ := by
  simp [convert_point_format, convert_point_to_abs_origin, convert_point_from_abs_origin]

theorem convert_bbox_same_abs_origin (b : Bbox) (e : ImageEle) :
    convert_bbox_format b e "abs_origin" "abs_origin" =
      .ok ⟨(pyInt (pyInt b.x1 : ℚ) : ℚ), (pyInt (pyInt b.y1 : ℚ) : ℚ),
           (pyInt (pyInt b.x2 : ℚ) : ℚ), (pyInt (pyInt b.y2 : ℚ) : ℚ)⟩ := by
  simp [convert_bbox_format, convert_bbox_to_abs_origin, convert_bbox_from_abs_origin]

theorem convert_bbox_same_abs_resized (b : Bbox) (e : ImageEle) :
    convert_bbox_format b e "abs_resized" "abs_resized" =
      .ok ⟨(pyInt ((pyInt (b.x1 / e.resized_width * e.width) : ℚ)
              / e.width * e.resized_width) : ℚ),
           (pyInt ((pyInt (b.y1 / e.resized_height * e.height) : ℚ)
              / e.height * e.resized_height) : ℚ),
           (pyInt ((pyInt (b.x2 / e.resized_width * e.width) : ℚ)
              / e.width * e.resized_width) : ℚ),
           (pyInt ((pyInt (b.y2 / e.resized_height * e.height) : ℚ)
              / e.height * e.resized_height) : ℚ)⟩ := by
  simp [convert_bbox_format, convert_bbox_to_abs_origin, convert_bbox_from_abs_origin]

theorem convert_bbox_same_qwen (b : Bbox) (e : ImageEle) :
    convert_bbox_format b e "qwen-vl" "qwen-vl" =
      .ok ⟨(pyInt ((pyInt (b.x1 / 999 * e.width) : ℚ) / e.width * 999) : ℚ),
           (pyInt ((pyInt (b.y1 / 999 * e.height) : ℚ) / e.height * 999) : ℚ),
           (pyInt ((pyInt (b.x2 / 999 * e.width) : ℚ) / e.width * 999) : ℚ),
           (pyInt ((pyInt (b.y2 / 999 * e.height) : ℚ) / e.height * 999) : ℚ)⟩ := by
  simp [convert_bbox_format, convert_bbox_to_abs_origin, convert_bbox_from_abs_origin]

theorem convert_bbox_same_rel (b : Bbox) (e : ImageEle) :
    convert_bbox_format b e "rel" "rel" =
      .ok ⟨(pyInt (b.x1 * e.width) : ℚ) / e.width,
           (pyInt (b.y1 * e.height) : ℚ) / e.height,
           (pyInt (b.x2 * e.width) : ℚ) / e.width,
           (pyInt (b.y2 * e.height) : ℚ) / e.height⟩ := by
  simp [convert_bbox_format, convert_bbox_to_abs_origin, convert_bbox_from_abs_origin]

theorem convert_bbox_same_molmo (b : Bbox) (e : ImageEle) :
    convert_bbox_format b e "molmo" "molmo" =
      .ok ⟨pyRound1 ((pyInt (b.x1 / 100 * e.width) : ℚ) / e.width * 100),
           pyRound1 ((pyInt (b.y1 / 100 * e.height) : ℚ) / e.height * 100),
           pyRound1 ((pyInt (b.x2 / 100 * e.width) : ℚ) / e.width * 100),
           pyRound1 ((pyInt (b.y2 / 100 * e.height) : ℚ) / e.height * 100)⟩ := by
  simp [convert_bbox_format, convert_bbox_to_abs_origin, convert_bbox_from_abs_origin]

/-- C3 (counterexample): the claimed fixed tolerance fails.  On the image
element with raw size `10 x 10`, round-tripping the in-range `qwen-vl` point
`(123, 123)` through `convert_point_format` returns `(99, 99)`, which is off
by `24 > 1` units: the per-axis loss of the `qwen-vl` leg is of the order
`999/width`, not one unit, when the raw dimension is smaller than the format
scale. -/
theorem convert_roundtrip_counterexample :
    convert_point_format ⟨123, 123⟩ ⟨10, 10, 1, 1⟩ "qwen-vl" "qwen-vl" = .ok ⟨99, 99⟩ ∧
      ¬ |(99 : ℚ) - 123| ≤ 1 := by
  constructor
  · rw [convert_point_same_qwen]
    norm_num [pyInt]
  · rw [abs_le]
    norm_num

/-- C3 (amended): round-tripping a box or point through the same format
loses, per axis, at most the source format's granularity measured against
the image dimensions: nothing for `abs_origin` (integer input); less than
`resized_dim/raw_dim + 1` for `abs_resized`; less than `999/raw_dim + 1` for
`qwen-vl`; less than `1/raw_dim` for `rel`; at most `100/raw_dim + 1/20` for
`molmo` (and never more than `1/20` above the original).  The originally
claimed constants are recovered exactly when the relevant granularity bound
is at most the claimed constant (e.g. `resized ≤ raw` for `abs_resized`,
`raw ≥ 999` for `qwen-vl`, `raw ≥ 10^6` for `rel`, `raw ≥ 2000` for
`molmo`). -/
theorem convert_roundtrip_tolerances :
    (∀ (x y : ℤ) (e : ImageEle),
      convert_point_format ⟨(x : ℚ), (y : ℚ)⟩ e "abs_origin" "abs_origin"
        = .ok ⟨(x : ℚ), (y : ℚ)⟩) ∧
    (∀ (x y : ℤ) (e : ImageEle) (p : Point),
      0 ≤ x → 0 ≤ y → 0 < e.width → 0 < e.height →
      0 < e.resized_width → 0 < e.resized_height →
      convert_point_format ⟨(x : ℚ), (y : ℚ)⟩ e "abs_resized" "abs_resized" = .ok p →
      (p.x ≤ (x : ℚ) ∧ (x : ℚ) - e.resized_width / e.width - 1 < p.x) ∧
      (p.y ≤ (y : ℚ) ∧ (y : ℚ) - e.resized_height / e.height - 1 < p.y)) ∧
    (∀ (x y : ℤ) (e : ImageEle) (p : Point),
      0 ≤ x → 0 ≤ y → 0 < e.width → 0 < e.height →
      convert_point_format ⟨(x : ℚ), (y : ℚ)⟩ e "qwen-vl" "qwen-vl" = .ok p →
      (p.x ≤ (x : ℚ) ∧ (x : ℚ) - 999 / e.width - 1 < p.x) ∧
      (p.y ≤ (y : ℚ) ∧ (y : ℚ) - 999 / e.height - 1 < p.y)) ∧
    (∀ (x y : ℚ) (e : ImageEle) (p : Point),
      0 ≤ x → 0 ≤ y → 0 < e.width → 0 < e.height →
      convert_point_format ⟨x, y⟩ e "rel" "rel" = .ok p →
      (p.x ≤ x ∧ x - 1 / e.width < p.x) ∧
      (p.y ≤ y ∧ y - 1 / e.height < p.y)) ∧
    (∀ (x y : ℚ) (e : ImageEle) (p : Point),
      0 ≤ x → 0 ≤ y → 0 < e.width → 0 < e.height →
      convert_point_format ⟨x, y⟩ e "molmo" "molmo" = .ok p →
      (p.x ≤ x + 1/20 ∧ x - 100 / e.width - 1/20 < p.x) ∧
      (p.y ≤ y + 1/20 ∧ y - 100 / e.height - 1/20 < p.y)) ∧
    (∀ (x1 y1 x2 y2 : ℤ) (e : ImageEle),
      convert_bbox_format ⟨(x1 : ℚ), (y1 : ℚ), (x2 : ℚ), (y2 : ℚ)⟩ e "abs_origin" "abs_origin"
        = .ok ⟨(x1 : ℚ), (y1 : ℚ), (x2 : ℚ), (y2 : ℚ)⟩) ∧
    (∀ (x1 y1 x2 y2 : ℤ) (e : ImageEle) (b : Bbox),
      0 ≤ x1 → 0 ≤ y1 → 0 ≤ x2 → 0 ≤ y2 → 0 < e.width → 0 < e.height →
      0 < e.resized_width → 0 < e.resized_height →
      convert_bbox_format ⟨(x1 : ℚ), (y1 : ℚ), (x2 : ℚ), (y2 : ℚ)⟩ e
          "abs_resized" "abs_resized" = .ok b →
      (b.x1 ≤ (x1 : ℚ) ∧ (x1 : ℚ) - e.resized_width / e.width - 1 < b.x1) ∧
      (b.y1 ≤ (y1 : ℚ) ∧ (y1 : ℚ) - e.resized_height / e.height - 1 < b.y1) ∧
      (b.x2 ≤ (x2 : ℚ) ∧ (x2 : ℚ) - e.resized_width / e.width - 1 < b.x2) ∧
      (b.y2 ≤ (y2 : ℚ) ∧ (y2 : ℚ) - e.resized_height / e.height - 1 < b.y2)) ∧
    (∀ (x1 y1 x2 y2 : ℤ) (e : ImageEle) (b : Bbox),
      0 ≤ x1 → 0 ≤ y1 → 0 ≤ x2 → 0 ≤ y2 → 0 < e.width → 0 < e.height →
      convert_bbox_format ⟨(x1 : ℚ), (y1 : ℚ), (x2 : ℚ), (y2 : ℚ)⟩ e
          "qwen-vl" "qwen-vl" = .ok b →
      (b.x1 ≤ (x1 : ℚ) ∧ (x1 : ℚ) - 999 / e.width - 1 < b.x1) ∧
      (b.y1 ≤ (y1 : ℚ) ∧ (y1 : ℚ) - 999 / e.height - 1 < b.y1) ∧
      (b.x2 ≤ (x2 : ℚ) ∧ (x2 : ℚ) - 999 / e.width - 1 < b.x2) ∧
      (b.y2 ≤ (y2 : ℚ) ∧ (y2 : ℚ) - 999 / e.height - 1 < b.y2)) ∧
    (∀ (x1 y1 x2 y2 : ℚ) (e : ImageEle) (b : Bbox),
      0 ≤ x1 → 0 ≤ y1 → 0 ≤ x2 → 0 ≤ y2 → 0 < e.width → 0 < e.height →
      convert_bbox_format ⟨x1, y1, x2, y2⟩ e "rel" "rel" = .ok b →
      (b.x1 ≤ x1 ∧ x1 - 1 / e.width < b.x1) ∧
      (b.y1 ≤ y1 ∧ y1 - 1 / e.height < b.y1) ∧
      (b.x2 ≤ x2 ∧ x2 - 1 / e.width < b.x2) ∧
      (b.y2 ≤ y2 ∧ y2 - 1 / e.height < b.y2)) ∧
    (∀ (x1 y1 x2 y2 : ℚ) (e : ImageEle) (b : Bbox),
      0 ≤ x1 → 0 ≤ y1 → 0 ≤ x2 → 0 ≤ y2 → 0 < e.width → 0 < e.height →
      convert_bbox_format ⟨x1, y1, x2, y2⟩ e "molmo" "molmo" = .ok b →
      (b.x1 ≤ x1 + 1/20 ∧ x1 - 100 / e.width - 1/20 < b.x1) ∧
      (b.y1 ≤ y1 + 1/20 ∧ y1 - 100 / e.height - 1/20 < b.y1) ∧
      (b.x2 ≤ x2 + 1/20 ∧ x2 - 100 / e.width - 1/20 < b.x2) ∧
      (b.y2 ≤ y2 + 1/20 ∧ y2 - 100 / e.height - 1/20 < b.y2)) := by
  refine ⟨?_, ?_, ?_, ?_, ?_, ?_, ?_, ?_, ?_, ?_⟩
  · intro x y e
    rw [convert_point_same_abs_origin]
    rw [pyInt_intCast, pyInt_intCast, pyInt_intCast, pyInt_intCast]
  · intro x y e p hx hy hw hh hrw hrh hp
    rw [convert_point_same_abs_resized] at hp
    injection hp with hp
    subst hp
    have hx' : (0:ℚ) ≤ (x : ℚ) := by exact_mod_cast hx
    have hy' : (0:ℚ) ≤ (y : ℚ) := by exact_mod_cast hy
    exact ⟨scale_roundtrip (x : ℚ) e.width e.resized_width hx' hw hrw,
      scale_roundtrip (y : ℚ) e.height e.resized_height hy' hh hrh⟩
  · intro x y e p hx hy hw hh hp
    rw [convert_point_same_qwen] at hp
    injection hp with hp
    subst hp
    have hx' : (0:ℚ) ≤ (x : ℚ) := by exact_mod_cast hx
    have hy' : (0:ℚ) ≤ (y : ℚ) := by exact_mod_cast hy
    exact ⟨scale_roundtrip (x : ℚ) e.width 999 hx' hw (by norm_num),
      scale_roundtrip (y : ℚ) e.height 999 hy' hh (by norm_num)⟩
  · intro x y e p hx hy hw hh hp
    rw [convert_point_same_rel] at hp
    injection hp with hp
    subst hp
    exact ⟨rel_roundtrip x e.width hx hw, rel_roundtrip y e.height hy hh⟩
  · intro x y e p hx hy hw hh hp
    rw [convert_point_same_molmo] at hp
    injection hp with hp
    subst hp
    exact ⟨molmo_roundtrip x e.width hx hw, molmo_roundtrip y e.height hy hh⟩
  · intro x1 y1 x2 y2 e
    rw [convert_bbox_same_abs_origin]
    rw [pyInt_intCast, pyInt_intCast, pyInt_intCast, pyInt_intCast,
      pyInt_intCast, pyInt_intCast, pyInt_intCast, pyInt_intCast]
  · intro x1 y1 x2 y2 e b h1 h2 h3 h4 hw hh hrw hrh hb
    rw [convert_bbox_same_abs_resized] at hb
    injection hb with hb
    subst hb
    have h1' : (0:ℚ) ≤ (x1 : ℚ) := by exact_mod_cast h1
    have h2' : (0:ℚ) ≤ (y1 : ℚ) := by exact_mod_cast h2
    have h3' : (0:ℚ) ≤ (x2 : ℚ) := by exact_mod_cast h3
    have h4' : (0:ℚ) ≤ (y2 : ℚ) := by exact_mod_cast h4
    exact ⟨scale_roundtrip (x1 : ℚ) e.width e.resized_width h1' hw hrw,
      scale_roundtrip (y1 : ℚ) e.height e.resized_height h2' hh hrh,
      scale_roundtrip (x2 : ℚ) e.width e.resized_width h3' hw hrw,
      scale_roundtrip (y2 : ℚ) e.height e.resized_height h4' hh hrh⟩
  · intro x1 y1 x2 y2 e b h1 h2 h3 h4 hw hh hb
    rw [convert_bbox_same_qwen] at hb
    injection hb with hb
    subst hb
    have h1' : (0:ℚ) ≤ (x1 : ℚ) := by exact_mod_cast h1
    have h2' : (0:ℚ) ≤ (y1 : ℚ) := by exact_mod_cast h2
    have h3' : (0:ℚ) ≤ (x2 : ℚ) := by exact_mod_cast h3
    have h4' : (0:ℚ) ≤ (y2 : ℚ) := by exact_mod_cast h4
    exact ⟨scale_roundtrip (x1 : ℚ) e.width 999 h1' hw (by norm_num),
      scale_roundtrip (y1 : ℚ) e.height 999 h2' hh (by norm_num),
      scale_roundtrip (x2 : ℚ) e.width 999 h3' hw (by norm_num),
      scale_roundtrip (y2 : ℚ) e.height 999 h4' hh (by norm_num)⟩
  · intro x1 y1 x2 y2 e b h1 h2 h3 h4 hw hh hb
    rw [convert_bbox_same_rel] at hb
    injection hb with hb
    subst hb
    exact ⟨rel_roundtrip x1 e.width h1 hw, rel_roundtrip y1 e.height h2 hh,
      rel_roundtrip x2 e.width h3 hw, rel_roundtrip y2 e.height h4 hh⟩
  · intro x1 y1 x2 y2 e b h1 h2 h3 h4 hw hh hb
    rw [convert_bbox_same_molmo] at hb
    injection hb with hb
    subst hb
    exact ⟨molmo_roundtrip x1 e.width h1 hw, molmo_roundtrip y1 e.height h2 hh,
      molmo_roundtrip x2 e.width h3 hw, molmo_roundtrip y2 e.height h4 hh⟩

theorem convert_roundtrip_tolerances_witness :
    convert_point_format ⟨500, 500⟩ ⟨1000, 1000, 1000, 1000⟩ "qwen-vl" "qwen-vl"
        = .ok ⟨499, 499⟩ ∧
      (499 : ℚ) ≤ 500 ∧ (500 : ℚ) - 999 / 1000 - 1 < 499 := by
  have hcomp : convert_point_format ⟨500, 500⟩ ⟨1000, 1000, 1000, 1000⟩ "qwen-vl" "qwen-vl"
      = .ok ⟨499, 499⟩ := by
    rw [convert_point_same_qwen]
    norm_num [pyInt]
  refine ⟨hcomp, ?_⟩
  have h := (convert_roundtrip_tolerances.2.2.1 500 500 ⟨1000, 1000, 1000, 1000⟩ ⟨499, 499⟩
    (by norm_num) (by norm_num) (by norm_num) (by norm_num) (by exact_mod_cast hcomp))
  exact ⟨by simpa using h.1.1, by simpa using h.1.2⟩

/-- C7: converting a box of integer `abs_origin` coordinates to `rel` divides
each x-coordinate by the raw width and each y-coordinate by the raw height
(the `resized_*` fields play no role in this conversion). -/
theorem convert_bbox_abs_origin_to_rel (x1 y1 x2 y2 : ℤ) (e : ImageEle)
    (hw : 0 < e.width) (hh : 0 < e.height) :
    convert_bbox_format ⟨(x1 : ℚ), (y1 : ℚ), (x2 : ℚ), (y2 : ℚ)⟩ e "abs_origin" "rel"
      = .ok ⟨(x1 : ℚ) / e.width, (y1 : ℚ) / e.height,
             (x2 : ℚ) / e.width, (y2 : ℚ) / e.height⟩ := by
  simp [convert_bbox_format, convert_bbox_to_abs_origin, convert_bbox_from_abs_origin,
    pyInt_intCast]

theorem convert_bbox_abs_origin_to_rel_witness :
    convert_bbox_format ⟨100, 100, 200, 200⟩ ⟨1000, 1000, 1, 1⟩ "abs_origin" "rel"
      = .ok ⟨1/10, 1/10, 1/5, 1/5⟩ := by
  have h := convert_bbox_abs_origin_to_rel 100 100 200 200 ⟨1000, 1000, 1, 1⟩
    (by norm_num) (by norm_num)
  refine Eq.trans (by exact_mod_cast h) ?_
  norm_num

/-! ### Byte-level downscale (`downscale_image_bytes`, source lines 48-63)

The cv2 codec calls are external library code.  The embedding works on the
decoded image: `RawImage` carries the decoded dimensions plus an opaque
payload, and `cv2.resize` is an explicit function parameter whose documented
contract (the output has exactly the requested dimensions) is a hypothesis
of the theorem.  The trailing lossless PNG re-encode (and the
decode-failure fallback, which returns the input bytes unchanged) does not
change the decoded image and is not modelled further. -/

/-- A decoded image: its pixel dimensions plus an opaque content payload. -/
structure RawImage where
  width : ℕ
  height : ℕ
  data : ℕ

/-- Source `downscale_image_bytes` after a successful decode:
`scale = min(max_w/width, max_h/height, 1.0)`; resize (to
`max(int(dim*scale), 1)` per side) only when `scale < 1`. -/
def downscale_decoded (cv2resize : RawImage → ℕ → ℕ → RawImage)
    (img : RawImage) (max_w max_h : ℕ) : RawImage :=
  let scale : ℚ := min ((max_w : ℚ) / (img.width : ℚ))
    (min ((max_h : ℚ) / (img.height : ℚ)) 1)
  if scale < 1 then
    cv2resize img (max (pyInt ((img.width : ℚ) * scale)).toNat 1)
      (max (pyInt ((img.height : ℚ) * scale)).toNat 1)
  else img

/-- C8: for a decodable image (positive decoded dimensions) and a resize
primitive that returns exactly the requested dimensions, `downscale` never
increases either dimension, and an image already within `(max_w, max_h)` is
returned unmodified (the `scale < 1` resize branch is not taken). -/
theorem downscale_spec
    (cv2resize : RawImage → ℕ → ℕ → RawImage)
    (hresize : ∀ i w h, (cv2resize i w h).width = w ∧ (cv2resize i w h).height = h)
    (img : RawImage) (max_w max_h : ℕ)
    (hw : 0 < img.width) (hh : 0 < img.height) :
    (downscale_decoded cv2resize img max_w max_h).width ≤ img.width ∧
    (downscale_decoded cv2resize img max_w max_h).height ≤ img.height ∧
    (img.width ≤ max_w → img.height ≤ max_h →
      downscale_decoded cv2resize img max_w max_h = img) := by
  rw [downscale_decoded]
  set scale : ℚ := min ((max_w : ℚ) / (img.width : ℚ))
    (min ((max_h : ℚ) / (img.height : ℚ)) 1) with hscale
  have hscale0 : 0 ≤ scale := by
    rw [hscale]
    have h1 : (0:ℚ) ≤ (max_w : ℚ) / (img.width : ℚ) := by positivity
    have h2 : (0:ℚ) ≤ (max_h : ℚ) / (img.height : ℚ) := by positivity
    exact le_min h1 (le_min h2 (by norm_num))
  have hscale1 : scale ≤ 1 := le_trans (min_le_right _ _) (min_le_right _ _)
  by_cases hs : scale < 1
  · rw [if_pos hs]
    obtain ⟨hrw, hrh⟩ := hresize img (max (pyInt ((img.width : ℚ) * scale)).toNat 1)
      (max (pyInt ((img.height : ℚ) * scale)).toNat 1)
    have hwle : max (pyInt ((img.width : ℚ) * scale)).toNat 1 ≤ img.width := by
      refine max_le ?_ hw
      rw [pyInt_of_nonneg _ (by positivity)]
      have h1 : (img.width : ℚ) * scale ≤ (img.width : ℚ) := by
        calc (img.width : ℚ) * scale ≤ (img.width : ℚ) * 1 :=
          mul_le_mul_of_nonneg_left hscale1 (by positivity)
          _ = (img.width : ℚ) := mul_one _
      have h2 : ⌊(img.width : ℚ) * scale⌋ ≤ (img.width : ℤ) := by
        calc ⌊(img.width : ℚ) * scale⌋ ≤ ⌊(img.width : ℚ)⌋ := Int.floor_mono h1
          _ = (img.width : ℤ) := Int.floor_natCast _
      exact Int.toNat_le.mpr h2
    have hhle : max (pyInt ((img.height : ℚ) * scale)).toNat 1 ≤ img.height := by
      refine max_le ?_ hh
      rw [pyInt_of_nonneg _ (by positivity)]
      have h1 : (img.height : ℚ) * scale ≤ (img.height : ℚ) := by
        calc (img.height : ℚ) * scale ≤ (img.height : ℚ) * 1 :=
          mul_le_mul_of_nonneg_left hscale1 (by positivity)
          _ = (img.height : ℚ) := mul_one _
      have h2 : ⌊(img.height : ℚ) * scale⌋ ≤ (img.height : ℤ) := by
        calc ⌊(img.height : ℚ) * scale⌋ ≤ ⌊(img.height : ℚ)⌋ := Int.floor_mono h1
          _ = (img.height : ℤ) := Int.floor_natCast _
      exact Int.toNat_le.mpr h2
    refine ⟨by rw [hrw]; exact hwle, by rw [hrh]; exact hhle, ?_⟩
    intro hbw hbh
    exfalso
    have h1 : (1:ℚ) ≤ (max_w : ℚ) / (img.width : ℚ) := by
      rw [le_div_iff₀ (by exact_mod_cast hw)]
      simpa using (by exact_mod_cast hbw : (img.width : ℚ) ≤ (max_w : ℚ))
    have h2 : (1:ℚ) ≤ (max_h : ℚ) / (img.height : ℚ) := by
      rw [le_div_iff₀ (by exact_mod_cast hh)]
      simpa using (by exact_mod_cast hbh : (img.height : ℚ) ≤ (max_h : ℚ))
    have : (1:ℚ) ≤ scale := by
      rw [hscale]
      exact le_min h1 (le_min h2 le_rfl)
    exact absurd hs (not_lt.mpr this)
  · rw [if_neg hs]
    exact ⟨le_rfl, le_rfl, fun _ _ => rfl⟩

theorem downscale_spec_witness :
    ((downscale_decoded (fun i w h => ⟨w, h, i.data⟩) ⟨800, 600, 0⟩ 1280 720).width ≤ 800 ∧
      (downscale_decoded (fun i w h => ⟨w, h, i.data⟩) ⟨800, 600, 0⟩ 1280 720).height ≤ 600 ∧
      (800 ≤ 1280 → 600 ≤ 720 →
        downscale_decoded (fun i w h => ⟨w, h, i.data⟩) ⟨800, 600, 0⟩ 1280 720
          = ⟨800, 600, 0⟩)) :=
  downscale_spec (fun i w h => ⟨w, h, i.data⟩) (fun _ _ _ => ⟨rfl, rfl⟩)
    ⟨800, 600, 0⟩ 1280 720 (by norm_num) (by norm_num)

/-! ### Perceptual difference hash (`dhash`, source lines 109-129)

PIL is an optional external dependency: its availability and the
decode/convert/resize pipeline are explicit parameters (`none` models a
decode failure, i.e. the `except` branch).  The repository's own code — the
adjacent-pixel comparison and the bit-packing loop — is embedded directly. -/

/-- The numpy comparison `pixels[:, 1:] > pixels[:, :-1]`, flattened
row-major. -/
def diffBits (pixels : List (List ℕ)) : List Bool :=
  (pixels.map (fun row => (row.zip row.tail).map (fun pr => decide (pr.1 < pr.2)))).join

/-- The packing loop `value = (value << 1) | int(bit)` over the flattened
bits, starting from 0. -/
def packBits (bits : List Bool) : ℕ :=
  bits.foldl (fun value bit => 2 * value + (if bit then 1 else 0)) 0

/-- Source `dhash`: returns 0 when PIL is unavailable (the `ImportError`
branch) or when decoding/resizing the bytes fails (the `except` branch);
otherwise packs the adjacent-intensity comparison bits of the decoded
`(hash_size+1) x hash_size` grayscale thumbnail. -/
def dhash (pillowAvailable : Bool)
    (decodeResize : List ℕ → ℕ → Option (List (List ℕ)))
    (image_bytes : List ℕ) (hash_size : ℕ) : ℕ :=
  if pillowAvailable = false then 0
  else
    match decodeResize image_bytes hash_size with
    | none => 0
    | some pixels => packBits (diffBits pixels)

/-- C9: `dhash` is a pure function of its inputs — byte-identical inputs
(under the same decoder) hash identically — and it returns the sentinel `0`
both when the optional decoder (PIL) is unavailable and when decoding
fails, instead of raising. -/
theorem dhash_deterministic_and_sentinel :
    (∀ (pillow : Bool) (decodeResize : List ℕ → ℕ → Option (List (List ℕ)))
        (b1 b2 : List ℕ) (hash_size : ℕ), b1 = b2 →
      dhash pillow decodeResize b1 hash_size = dhash pillow decodeResize b2 hash_size) ∧
    (∀ (decodeResize : List ℕ → ℕ → Option (List (List ℕ))) (b : List ℕ) (hash_size : ℕ),
      dhash false decodeResize b hash_size = 0) ∧
    (∀ (decodeResize : List ℕ → ℕ → Option (List (List ℕ))) (b : List ℕ) (hash_size : ℕ),
      decodeResize b hash_size = none → dhash true decodeResize b hash_size = 0) := by
  refine ⟨?_, ?_, ?_⟩
  · intro pillow decodeResize b1 b2 hash_size hb
    rw [hb]
  · intro decodeResize b hash_size
    rfl
  · intro decodeResize b hash_size hdec
    rw [dhash]
    simp only [Bool.true_eq_false, if_false]
    rw [hdec]

theorem dhash_deterministic_and_sentinel_witness :
    dhash true (fun _ _ => none) [0] 8 = dhash true (fun _ _ => none) [0] 8 ∧
      dhash false (fun _ _ => none) [0] 8 = 0 ∧
      dhash true (fun _ _ => none) [0] 8 = 0 := by
  refine ⟨?_, ?_, ?_⟩
  · exact dhash_deterministic_and_sentinel.1 true (fun _ _ => none) [0] [0] 8 rfl
  · exact dhash_deterministic_and_sentinel.2.1 (fun _ _ => none) [0] 8
  · exact dhash_deterministic_and_sentinel.2.2 (fun _ _ => none) [0] 8 rfl

end ImageProcessor
